import Mathlib

/-!
Verification of the swagger-docs-mcp fetch-parse-merge-cache pipeline.

The TypeScript sources (`src/swagger-fetcher.ts`, `src/auth.ts`,
`src/config.ts`) are shallowly embedded below.  JavaScript objects used
as string-keyed maps become insertion-ordered association lists with
JS-object update semantics (`objSet` updates in place, `objGet` looks up
the unique key); `Map` has the same model.  External libraries (axios,
the yaml/JSON parsers, `new URL`) are oracle functions bundled in `Env`.
Every site of the embedding that issues an HTTP request also records the
requested URL in a log, so "no network call" claims are statements about
that log.  Document payloads (path items, schema bodies) are opaque to
the code and are a type parameter `V`.
-/

namespace Swagger

/-- Decidable equality of `Except` values, so that concrete pipeline
outcomes can be checked by `decide`. -/
instance {ε α : Type} [DecidableEq ε] [DecidableEq α] :
    DecidableEq (Except ε α) := fun a b =>
  match a, b with
  | Except.error e1, Except.error e2 =>
    if h : e1 = e2 then Decidable.isTrue (congrArg Except.error h)
    else Decidable.isFalse (fun hh => h (Except.error.inj hh))
  | Except.ok x, Except.ok y =>
    if h : x = y then Decidable.isTrue (congrArg Except.ok h)
    else Decidable.isFalse (fun hh => h (Except.ok.inj hh))
  | Except.error _, Except.ok _ => Decidable.isFalse (fun hh => Except.noConfusion hh)
  | Except.ok _, Except.error _ => Decidable.isFalse (fun hh => Except.noConfusion hh)

/-- JS-object / `Map` model: insertion-ordered association list.
`objSet` models `m[k] = v` / `Map.set`: an existing key keeps its
position and gets the new value, a new key is appended. -/
def objSet {V : Type} (m : List (String × V)) (k : String) (v : V) :
    List (String × V) :=
  if m.any (fun p => p.1 = k) then
    m.map (fun p => if p.1 = k then (k, v) else p)
  else
    m ++ [(k, v)]

/-- JS-object / `Map` lookup (`m[k]` / `Map.get`). -/
def objGet {V : Type} (m : List (String × V)) (k : String) : Option V :=
  (m.find? (fun p => p.1 = k)).map (fun p => p.2)

/-- Fold of `objSet` over a list of entries: models a JS
`for (const [k, v] of Object.entries(src)) dst[k] = v` loop and
`Object.assign(dst, src)`. -/
def objMergeAll {V : Type} (m : List (String × V)) (src : List (String × V)) :
    List (String × V) :=
  src.foldl (fun acc kv => objSet acc kv.1 kv.2) m

/-- JS truthiness of an optional string field: `undefined` and `""` are
falsy, any other string is truthy. -/
def truthyStr : Option String → Bool
  | none => false
  | some s => s ≠ ""

/-- Model of JavaScript `String.prototype.endsWith` (over the character
list, so that it evaluates in the kernel). -/
def jsEndsWith (s suffix : String) : Bool :=
  List.isSuffixOf suffix.data s.data

/-- Model of JavaScript `String.prototype.trim`: strip whitespace from
both ends. -/
def jsTrim (s : String) : String :=
  ⟨((s.data.dropWhile Char.isWhitespace).reverse.dropWhile Char.isWhitespace).reverse⟩

/-- A tag entry `{name, description?}` from a swagger document. -/
structure Tag where
  name : String
  description : Option String
  deriving Repr, DecidableEq

/-- `components: { schemas?, securitySchemes? }` of a document
(`SwaggerDoc.components` in `swagger-fetcher.ts`). -/
structure Components (V : Type) where
  schemas : Option (List (String × V))
  securitySchemes : Option (List (String × V))
  deriving Repr, DecidableEq

/-- `info` block of a document. -/
structure Info where
  title : String
  version : String
  description : Option String
  deriving Repr, DecidableEq

/-- The `SwaggerDoc` interface of `swagger-fetcher.ts`.  Payload values
(path items, schema bodies) are the opaque type `V`. -/
structure SwaggerDoc (V : Type) where
  openapi : Option String
  swagger : Option String
  info : Info
  paths : List (String × V)
  components : Option (Components V)
  definitions : Option (List (String × V))
  tags : Option (List Tag)
  deriving Repr, DecidableEq

/-- `CombinedSwaggerDoc`: a `SwaggerDoc` spread together with an
optional `source` provenance label. -/
structure CombinedSwaggerDoc (V : Type) where
  doc : SwaggerDoc V
  source : Option String
  deriving Repr, DecidableEq

/-- One `{url, name}` entry of `swagger-config.json`. -/
structure UrlEntry where
  url : String
  name : String
  deriving Repr, DecidableEq

/-- The `SwaggerConfig` interface: only the `urls` field is read by the
pipeline. -/
structure SwaggerConfig where
  urls : Option (List UrlEntry)
  deriving Repr, DecidableEq

/-- A cache entry `{ data, timestamp }` of `SwaggerFetcher.cache`. -/
structure CacheEntry (V : Type) where
  data : SwaggerDoc V
  timestamp : Int
  deriving Repr, DecidableEq

/-- The mutable fields of a `SwaggerFetcher` instance. -/
structure FetcherState (V : Type) where
  cache : List (String × CacheEntry V)
  combinedDocs : List (String × CombinedSwaggerDoc V)
  swaggerConfig : Option SwaggerConfig
  deriving Repr, DecidableEq

/-- The relevant configuration (`config.ts`): the cache TTL in
milliseconds. -/
structure Config where
  cacheTTL : Int
  deriving Repr, DecidableEq

/-- The external world: the HTTP transport (`axios` via
`authenticatedRequest`; `none` is a transport error, `some raw` a 2xx
body as raw text), the yaml/JSON parsers (returning the parsed value
cast to `SwaggerDoc`, or `none` when the parser throws), `JSON.parse`
applied to `swagger-config.json` bodies, origin extraction
(`new URL(url)` then `protocol//host`; `none` when the constructor
throws), and the current clock `Date.now()`. -/
structure Env (V : Type) where
  net : String → Option String
  yamlParse : String → Option (SwaggerDoc V)
  jsonParse : String → Option (SwaggerDoc V)
  parseConfig : String → Option SwaggerConfig
  origin : String → Option String
  now : Int

/-! ## Auth (`src/auth.ts`, `AuthManager.applyAuth`) -/

/-- The `auth.credentials` object of `config.ts`. -/
structure AuthCredentials where
  username : Option String
  password : Option String
  token : Option String
  apiKey : Option String
  apiKeyHeader : Option String
  deriving Repr, DecidableEq

/-- The four values of `auth.type`. -/
inductive AuthType where
  | none
  | basic
  | bearer
  | apiKey
  deriving Repr, DecidableEq

/-- The `auth` object of the configuration. -/
structure AuthConfig where
  type : AuthType
  credentials : Option AuthCredentials
  deriving Repr, DecidableEq

/-- The part of an `AxiosRequestConfig` that `applyAuth` reads and
writes: the optional header map. -/
structure RequestConfig where
  headers : Option (List (String × String))
  deriving Repr, DecidableEq

/-- JS `a || d` on an optional string: the default is used when the
field is absent or the empty string. -/
def jsOrDefault (o : Option String) (d : String) : String :=
  match o with
  | none => d
  | some s => if s = "" then d else s

/-- `AuthManager.applyAuth` from `src/auth.ts`.  `b64` is the oracle for
`Buffer.from(_).toString('base64')` (never evaluated unless the basic
branch activates).  Mirrors the source: return the request unchanged for
absent auth or `type: 'none'`; otherwise initialize the header map
(`headers || {}`), then activate the branch for the configured type only
when its credential fields are truthy (JS truthiness: absent or empty
string deactivates). -/
def applyAuth (b64 : String → String) (auth : Option AuthConfig)
    (rc : RequestConfig) : RequestConfig :=
  match auth with
  | none => rc
  | some a =>
    match a.type with
    | AuthType.none => rc
    | AuthType.basic =>
      let hs := rc.headers.getD []
      let u := a.credentials.bind AuthCredentials.username
      let p := a.credentials.bind AuthCredentials.password
      if truthyStr u && truthyStr p then
        ⟨some (objSet hs "Authorization"
          ("Basic " ++ b64 (u.getD "" ++ ":" ++ p.getD "")))⟩
      else ⟨some hs⟩
    | AuthType.bearer =>
      let hs := rc.headers.getD []
      let t := a.credentials.bind AuthCredentials.token
      if truthyStr t then
        ⟨some (objSet hs "Authorization" ("Bearer " ++ t.getD ""))⟩
      else ⟨some hs⟩
    | AuthType.apiKey =>
      let hs := rc.headers.getD []
      let k := a.credentials.bind AuthCredentials.apiKey
      if truthyStr k then
        ⟨some (objSet hs
          (jsOrDefault (a.credentials.bind AuthCredentials.apiKeyHeader) "X-API-Key")
          (k.getD ""))⟩
      else ⟨some hs⟩

/-- The activation condition of `applyAuth`, read off the guards of
`src/auth.ts`: which auth configurations actually set a header. -/
def authActivates (auth : Option AuthConfig) : Bool :=
  match auth with
  | none => false
  | some a =>
    match a.type with
    | AuthType.none => false
    | AuthType.basic =>
      truthyStr (a.credentials.bind AuthCredentials.username) &&
      truthyStr (a.credentials.bind AuthCredentials.password)
    | AuthType.bearer => truthyStr (a.credentials.bind AuthCredentials.token)
    | AuthType.apiKey => truthyStr (a.credentials.bind AuthCredentials.apiKey)

/-! ## Fetch pipeline (`src/swagger-fetcher.ts`) -/

variable {V : Type}

/-- `true` exactly on `Except.error`. -/
def isErr {ε α : Type} : Except ε α → Bool
  | Except.error _ => true
  | Except.ok _ => false

/-- The two-stage decode of raw text: try `YAML.parse`, on failure try
`JSON.parse` (lines 100–111 and 148–158 of `swagger-fetcher.ts`). -/
def parseYamlJson (env : Env V) (raw : String) : Option (SwaggerDoc V) :=
  match env.yamlParse raw with
  | some d => some d
  | none => env.jsonParse raw

/-- `fetchSwaggerConfig`: GET `<baseUrl>/swagger-config.json`, then
`JSON.parse`; any failure is wrapped and rethrown.  The one URL it
requests is `baseUrl ++ "/swagger-config.json"`. -/
def fetchSwaggerConfig (env : Env V) (baseUrl : String) :
    Except String SwaggerConfig :=
  match env.net (baseUrl ++ "/swagger-config.json") with
  | none => Except.error "Failed to fetch swagger-config.json"
  | some raw =>
    match env.parseConfig raw with
    | some c => Except.ok c
    | none => Except.error "Failed to fetch swagger-config.json"

/-- `fetchIndividualSwaggerDoc`: GET `<baseUrl>/<path>`, reject
empty/whitespace-only bodies (`if (!docData.trim())`), then the
two-stage decode.  The one URL it requests is
`baseUrl ++ "/" ++ path`. -/
def fetchIndividualSwaggerDoc (env : Env V) (baseUrl path : String) :
    Except String (SwaggerDoc V) :=
  match env.net (baseUrl ++ "/" ++ path) with
  | none => Except.error ("Failed to fetch individual Swagger doc from " ++ path)
  | some raw =>
    if jsTrim raw = "" then Except.error "Empty response"
    else
      match parseYamlJson env raw with
      | some d => Except.ok d
      | none => Except.error "Unable to parse response as YAML or JSON"

/-- The loop-local accumulators of the hub-mode merge (lines 195–199):
the `combinedDocs` map plus `allPaths`, `allSchemas`, `allTags`,
`tagSet`. -/
structure MergeAcc (V : Type) where
  combinedDocs : List (String × CombinedSwaggerDoc V)
  allPaths : List (String × V)
  allSchemas : List (String × V)
  allTags : List Tag
  tagSet : List String
  deriving Repr, DecidableEq

/-- The accumulators at the top of the loop (`combinedDocs` freshly
cleared, everything else empty). -/
def emptyAcc : MergeAcc V := ⟨[], [], [], [], []⟩

/-- The tag-merging inner loop (lines 235–240): append each tag whose
name is not yet in `tagSet`. -/
def addTags (acc : List Tag × List String) (ts : List Tag) :
    List Tag × List String :=
  ts.foldl (fun a t =>
    if a.2.contains t.name then a else (a.1 ++ [t], a.2 ++ [t.name])) acc

/-- Deduplication of a tag list by name, first occurrence kept. -/
def dedupeTags (ts : List Tag) : List Tag := (addTags ([], []) ts).1

/-- The schema map a document contributes during the merge, read off
lines 222–230: `components.schemas` when present (even empty),
otherwise `definitions` when present, otherwise nothing. -/
def docSchemas (doc : SwaggerDoc V) : List (String × V) :=
  match doc.components.bind Components.schemas with
  | some m => m
  | none => doc.definitions.getD []

/-- The body of the merge loop for one successfully fetched document
(lines 206–241): store it in `combinedDocs` under its source name,
fold its `paths` into `allPaths`, fold its contributed schema map into
`allSchemas` (presence of `components.schemas` decides the location),
and append its unseen tags. -/
def mergeDoc (acc : MergeAcc V) (name : String) (doc : SwaggerDoc V) :
    MergeAcc V :=
  let cds := objSet acc.combinedDocs name ⟨doc, some name⟩
  let paths := objMergeAll acc.allPaths doc.paths
  let schemas :=
    match doc.components.bind Components.schemas with
    | some m => objMergeAll acc.allSchemas m
    | none =>
      match doc.definitions with
      | some m => objMergeAll acc.allSchemas m
      | none => acc.allSchemas
  let tp :=
    match doc.tags with
    | some ts => addTags (acc.allTags, acc.tagSet) ts
    | none => (acc.allTags, acc.tagSet)
  ⟨cds, paths, schemas, tp.1, tp.2⟩

/-- One iteration of the hub loop (lines 201–246): fetch the entry;
on success merge it, on failure leave the accumulators unchanged and
continue. -/
def processEntry (env : Env V) (baseUrl : String) (acc : MergeAcc V)
    (e : UrlEntry) : MergeAcc V :=
  match fetchIndividualSwaggerDoc env baseUrl e.url with
  | Except.ok doc => mergeDoc acc e.name doc
  | Except.error _ => acc

/-- The hub loop over all registry entries, in listed order. -/
def processEntries (env : Env V) (baseUrl : String) (acc : MergeAcc V) :
    List UrlEntry → MergeAcc V
  | [] => acc
  | e :: rest => processEntries env baseUrl (processEntry env baseUrl acc e) rest

/-- The URLs requested by the hub loop: exactly one request per registry
entry, in listed order, failures included (the request happens before
the failure can be observed). -/
def entriesLog (baseUrl : String) (entries : List UrlEntry) : List String :=
  entries.map (fun e => baseUrl ++ "/" ++ e.url)

/-- Construction of the combined document (lines 248–265): version
fields and `securitySchemes` come from `firstDoc`, the first value of
the insertion-ordered `combinedDocs` map; `paths`/`schemas`/`tags` are
the accumulators; `info` is synthesized. -/
def buildCombined (entryCount : Nat) (acc : MergeAcc V) : SwaggerDoc V :=
  let firstDoc := acc.combinedDocs.head?.map (fun p => p.2)
  { openapi := firstDoc.bind (fun f => f.doc.openapi)
    swagger := firstDoc.bind (fun f => f.doc.swagger)
    info := ⟨"Combined API Documentation", "1.0.0",
      some ("Combined documentation from " ++ toString entryCount ++ " API sources")⟩
    paths := acc.allPaths
    components := some ⟨some acc.allSchemas,
      firstDoc.bind (fun f => f.doc.components.bind Components.securitySchemes)⟩
    definitions := none
    tags := some acc.allTags }

/-- The result of one `fetchSwaggerDoc` call: the returned document or
thrown error, the fetcher state after the call, and the URLs requested
during the call. -/
structure FetchOutcome (V : Type) where
  result : Except String (SwaggerDoc V)
  state : FetcherState V
  log : List String
  deriving Repr

/-- The cache-miss path of `fetchSwaggerDoc` (lines 136–278): direct
mode for URLs ending in `.json`/`.yaml`/`.yml` (one request, two-stage
decode with no emptiness check, cache on success); otherwise hub mode
(derive origin, fetch and parse the registry — the `swaggerConfig`
field is assigned before the empty-registry check — then run the merge
loop, build the combined document, and cache it).  Every error branch
leaves the cache untouched. -/
def fetchSwaggerDocFresh (env : Env V) (cfg : Config) (s : FetcherState V)
    (url : String) : FetchOutcome V :=
  if jsEndsWith url ".json" || jsEndsWith url ".yaml" || jsEndsWith url ".yml" then
    match env.net url with
    | none => ⟨Except.error "Failed to fetch Swagger documentation", s, [url]⟩
    | some raw =>
      match parseYamlJson env raw with
      | none => ⟨Except.error "Failed to fetch Swagger documentation", s, [url]⟩
      | some d =>
        ⟨Except.ok d, { s with cache := objSet s.cache url ⟨d, env.now⟩ }, [url]⟩
  else
    match env.origin url with
    | none => ⟨Except.error "Failed to fetch Swagger documentation", s, []⟩
    | some baseUrl =>
      match fetchSwaggerConfig env baseUrl with
      | Except.error e => ⟨Except.error e, s, [baseUrl ++ "/swagger-config.json"]⟩
      | Except.ok sc =>
        let s1 := { s with swaggerConfig := some sc }
        match sc.urls with
        | none =>
          ⟨Except.error "No API URLs found in swagger-config.json", s1,
           [baseUrl ++ "/swagger-config.json"]⟩
        | some entries =>
          if entries.isEmpty then
            ⟨Except.error "No API URLs found in swagger-config.json", s1,
             [baseUrl ++ "/swagger-config.json"]⟩
          else
            let acc := processEntries env baseUrl emptyAcc entries
            let combined := buildCombined entries.length acc
            ⟨Except.ok combined,
             { s1 with combinedDocs := acc.combinedDocs,
                       cache := objSet s1.cache url ⟨combined, env.now⟩ },
             [baseUrl ++ "/swagger-config.json"] ++ entriesLog baseUrl entries⟩

/-- `fetchSwaggerDoc` (lines 126–279): return the cached document when
the entry exists and is fresh (`Date.now() - timestamp < cacheTTL`),
with no request issued; otherwise run the full pipeline. -/
def fetchSwaggerDoc (env : Env V) (cfg : Config) (s : FetcherState V)
    (url : String) : FetchOutcome V :=
  let freshHit : Option (SwaggerDoc V) :=
    match objGet s.cache url with
    | some entry =>
      if env.now - entry.timestamp < cfg.cacheTTL then some entry.data else none
    | none => none
  match freshHit with
  | some d => ⟨Except.ok d, s, []⟩
  | none => fetchSwaggerDocFresh env cfg s url

/-- `getSchemas` (lines 316–322): `components.schemas` (or `{}`)
when `swaggerDoc.openapi` is truthy, else `definitions` (or `{}`). -/
def getSchemas (doc : SwaggerDoc V) : List (String × V) :=
  if truthyStr doc.openapi then
    (doc.components.bind Components.schemas).getD []
  else
    doc.definitions.getD []

/-- `getApiSources` (lines 349–354): the names of the last resolved
registry's entries, `[]` when no registry was ever resolved. -/
def getApiSources (s : FetcherState V) : List String :=
  match s.swaggerConfig with
  | none => []
  | some sc =>
    match sc.urls with
    | none => []
    | some us => us.map UrlEntry.name

/-- `getDocBySource` (lines 356–358). -/
def getDocBySource (s : FetcherState V) (name : String) :
    Option (CombinedSwaggerDoc V) :=
  objGet s.combinedDocs name

/-! ## Concrete test fixtures (used by witnesses and counterexamples) -/

/-- A modern document used as hub source `A`. -/
def docA : SwaggerDoc String :=
  ⟨some "3.0.0", none, ⟨"A", "1", none⟩, [("/a", "opA"), ("/shared", "fromA")],
   some ⟨some [("SA", "sa"), ("SS", "ssA")], some [("secA", "v")]⟩, none,
   some [⟨"users", some "from A"⟩, ⟨"aonly", none⟩]⟩

/-- A modern document used as hub source `C`. -/
def docC : SwaggerDoc String :=
  ⟨some "3.0.1", none, ⟨"C", "1", none⟩, [("/c", "opC"), ("/shared", "fromC")],
   some ⟨some [("SC", "sc"), ("SS", "ssC")], some [("secC", "v")]⟩, none,
   some [⟨"users", some "from C"⟩, ⟨"conly", none⟩]⟩

/-- A legacy document (`swagger` set, `openapi` absent) whose
`components.schemas` and `definitions` are both populated, with
different bodies under the same schema name. -/
def docLegacy : SwaggerDoc String :=
  ⟨none, some "2.0", ⟨"L", "1", none⟩, [("/l", "opL")],
   some ⟨some [("S", "fromComponents")], none⟩, some [("S", "fromDefinitions")],
   none⟩

/-- A modern document (`openapi` set) whose `components.schemas` and
`definitions` are both populated. -/
def docBoth : SwaggerDoc String :=
  ⟨some "3.0.0", none, ⟨"B", "1", none⟩, [],
   some ⟨some [("S", "c")], none⟩, some [("S", "d")], none⟩

/-- Stand-in for the `null` value the yaml library produces when given
empty input (the code casts the parse result to `SwaggerDoc` without
validation). -/
def docNull : SwaggerDoc String :=
  ⟨none, none, ⟨"", "", none⟩, [], none, none, none⟩

/-- A hub environment: registry `[A, B, C]`, where fetching `B`'s
document fails (transport error) and `A`, `C` succeed; also serves a
direct document at `http://h/x.json`. -/
def envHub : Env String :=
  { net := fun u =>
      if u = "http://h/swagger-config.json" then some "CFG"
      else if u = "http://h/a.yaml" then some "RAWA"
      else if u = "http://h/c.yaml" then some "RAWC"
      else if u = "http://h/x.json" then some "RAWX"
      else none
    yamlParse := fun r =>
      if r = "RAWA" then some docA
      else if r = "RAWC" then some docC
      else if r = "RAWX" then some docA
      else none
    jsonParse := fun _ => none
    parseConfig := fun r =>
      if r = "CFG" then
        some ⟨some [⟨"a.yaml", "A"⟩, ⟨"b.yaml", "B"⟩, ⟨"c.yaml", "C"⟩]⟩
      else none
    origin := fun u => if u = "http://h/api-docs" then some "http://h" else none
    now := 100 }

/-- A hub environment whose registry has one entry pointing at the
legacy document with both schema maps populated. -/
def envLegacy : Env String :=
  { net := fun u =>
      if u = "http://h/swagger-config.json" then some "CFG"
      else if u = "http://h/l.yaml" then some "RAWL"
      else none
    yamlParse := fun r => if r = "RAWL" then some docLegacy else none
    jsonParse := fun _ => none
    parseConfig := fun r =>
      if r = "CFG" then some ⟨some [⟨"l.yaml", "L"⟩]⟩ else none
    origin := fun u => if u = "http://h/api-docs" then some "http://h" else none
    now := 100 }

/-- A hub environment where every registry entry fails: the first with
a transport error, the second with a whitespace-only body. -/
def envAllFail : Env String :=
  { net := fun u =>
      if u = "http://h/swagger-config.json" then some "CFG"
      else if u = "http://h/b.yaml" then some "   "
      else none
    yamlParse := fun _ => none
    jsonParse := fun _ => none
    parseConfig := fun r =>
      if r = "CFG" then some ⟨some [⟨"a.yaml", "A"⟩, ⟨"b.yaml", "B"⟩]⟩ else none
    origin := fun u => if u = "http://h/api-docs" then some "http://h" else none
    now := 100 }

/-- An environment serving an empty body for a direct `.json` URL,
whose yaml oracle mirrors the yaml library's real behaviour on empty
input: it succeeds (the empty YAML stream parses to `null`). -/
def envDirectEmpty : Env String :=
  { net := fun u => if u = "http://h/x.json" then some "" else none
    yamlParse := fun r => if r = "" then some docNull else none
    jsonParse := fun _ => none
    parseConfig := fun _ => none
    origin := fun _ => none
    now := 100 }

/-- The initial fetcher state: empty cache, no retained docs, no
registry. -/
def s0 : FetcherState String := ⟨[], [], none⟩

/-- A configuration with the default five-minute TTL. -/
def cfg0 : Config := ⟨300000⟩

/-- A configuration with a tiny TTL, for expiry scenarios. -/
def cfgShort : Config := ⟨10⟩

/-- A state whose cache holds `docC` for `http://h/x.json`, stored at
time 0. -/
def sCached : FetcherState String :=
  ⟨[("http://h/x.json", ⟨docC, 0⟩)], [], none⟩

/-! ## Association-list lemmas -/

theorem objGet_cons (p : String × V) (m : List (String × V)) (k : String) :
    objGet (p :: m) k = if p.1 = k then some p.2 else objGet m k := by
  simp only [objGet, List.find?_cons]
  by_cases h : p.1 = k <;> simp [h]

theorem objGet_eq_none {m : List (String × V)} {k : String}
    (h : m.any (fun p => p.1 = k) = false) : objGet m k = none := by
  unfold objGet
  rw [List.find?_eq_none.mpr]
  · rfl
  · intro x hx
    simp only [List.any_eq_false] at h
    simpa using h x hx

theorem objGet_eq_none_of_not_mem {m : List (String × V)} {k : String}
    (h : k ∉ m.map Prod.fst) : objGet m k = none := by
  apply objGet_eq_none
  simp only [List.any_eq_false]
  intro p hp
  simp only [decide_eq_true_eq]
  intro hpk
  exact h (List.mem_map.mpr ⟨p, hp, hpk⟩)

theorem objGet_map_self {m : List (String × V)} {k : String} {v : V}
    (h : m.any (fun p => p.1 = k) = true) :
    objGet (m.map (fun p => if p.1 = k then (k, v) else p)) k = some v := by
  induction m with
  | nil => simp at h
  | cons hd tl ih =>
    simp only [List.map_cons]
    by_cases hk : hd.1 = k
    · rw [if_pos hk, objGet_cons, if_pos rfl]
    · rw [if_neg hk, objGet_cons, if_neg hk]
      apply ih
      simpa [hk] using h

theorem objGet_map_replace {m : List (String × V)} {k k' : String} {v : V}
    (h : k' ≠ k) :
    objGet (m.map (fun p => if p.1 = k then (k, v) else p)) k' = objGet m k' := by
  induction m with
  | nil => rfl
  | cons hd tl ih =>
    simp only [List.map_cons]
    by_cases hk : hd.1 = k
    · rw [if_pos hk, objGet_cons, objGet_cons,
        if_neg (fun hh => h hh.symm), if_neg (by rw [hk]; exact Ne.symm h)]
      exact ih
    · rw [if_neg hk, objGet_cons, objGet_cons]
      by_cases h2 : hd.1 = k' <;> simp [h2, ih]

/-- The fundamental `objSet` lemma: setting key `k` yields `v` at `k`
and leaves every other key unchanged. -/
theorem objGet_objSet (m : List (String × V)) (k k' : String) (v : V) :
    objGet (objSet m k v) k' = if k' = k then some v else objGet m k' := by
  unfold objSet
  by_cases hany : m.any (fun p => p.1 = k) = true
  · rw [if_pos hany]
    by_cases hk : k' = k
    · subst hk; rw [if_pos rfl]; exact objGet_map_self hany
    · rw [if_neg hk]; exact objGet_map_replace hk
  · rw [if_neg hany]
    have hf : m.any (fun p => p.1 = k) = false := Bool.eq_false_iff.mpr hany
    by_cases hk : k' = k
    · subst hk
      rw [if_pos rfl]
      have h1 : objGet m k' = none := objGet_eq_none hf
      unfold objGet at h1 ⊢
      rw [List.find?_append, Option.map_eq_none'.mp h1, Option.none_or]
      simp [List.find?_cons]
    · rw [if_neg hk]
      unfold objGet
      rw [List.find?_append]
      have hne : ¬(k = k') := fun hh => hk hh.symm
      have h2 : List.find? (fun p => p.1 = k') [(k, v)] = none := by
        simp [List.find?_cons, hne]
      rw [h2, Option.or_none]

theorem objMergeAll_nil (m : List (String × V)) : objMergeAll m [] = m := rfl

theorem objMergeAll_cons (m : List (String × V)) (kv : String × V)
    (rest : List (String × V)) :
    objMergeAll m (kv :: rest) = objMergeAll (objSet m kv.1 kv.2) rest := rfl

/-- Merging a duplicate-free entry list into a map: lookups hit the
merged entries first and fall back to the original map. -/
theorem objGet_objMergeAll (m src : List (String × V)) (k : String)
    (h : (src.map Prod.fst).Nodup) :
    objGet (objMergeAll m src) k = (objGet src k).or (objGet m k) := by
  induction src generalizing m with
  | nil => simp [objMergeAll_nil, objGet]
  | cons kv rest ih =>
    simp only [List.map_cons, List.nodup_cons] at h
    rw [objMergeAll_cons, ih _ h.2, objGet_objSet, objGet_cons]
    by_cases hk : k = kv.1
    · rw [if_pos hk, if_pos hk.symm,
        objGet_eq_none_of_not_mem (by rw [hk]; exact h.1), Option.none_or]
      rfl
    · rw [if_neg hk, if_neg (fun hh => hk hh.symm)]

theorem objSet_nil (k : String) (v : V) : objSet ([] : List (String × V)) k v = [(k, v)] := rfl

theorem objSet_single_ne (k k' : String) (v v' : V) (h : k ≠ k') :
    objSet [(k, v)] k' v' = [(k, v), (k', v')] := by
  simp [objSet, h]

/-! ## Merge-loop lemmas -/

theorem mergeDoc_combinedDocs (acc : MergeAcc V) (n : String) (d : SwaggerDoc V) :
    (mergeDoc acc n d).combinedDocs = objSet acc.combinedDocs n ⟨d, some n⟩ := rfl

theorem mergeDoc_allPaths (acc : MergeAcc V) (n : String) (d : SwaggerDoc V) :
    (mergeDoc acc n d).allPaths = objMergeAll acc.allPaths d.paths := rfl

/-- The schema part of one merge step always folds exactly the
`docSchemas` of the document (the empty fold being a no-op). -/
theorem mergeDoc_allSchemas (acc : MergeAcc V) (n : String) (d : SwaggerDoc V) :
    (mergeDoc acc n d).allSchemas = objMergeAll acc.allSchemas (docSchemas d) := by
  unfold mergeDoc docSchemas
  cases h : d.components.bind Components.schemas with
  | some m => simp [h]
  | none =>
    cases hd : d.definitions with
    | some m => simp [h, hd]
    | none => simp [h, hd, objMergeAll]

/-- The tag part of one merge step always runs `addTags` on the tag
list (`[]` when the document has no tags). -/
theorem mergeDoc_tags (acc : MergeAcc V) (n : String) (d : SwaggerDoc V) :
    ((mergeDoc acc n d).allTags, (mergeDoc acc n d).tagSet) =
      addTags (acc.allTags, acc.tagSet) (d.tags.getD []) := by
  unfold mergeDoc
  cases h : d.tags with
  | some ts => simp [h]
  | none => simp [h, addTags]

theorem addTags_append (acc : List Tag × List String) (ts1 ts2 : List Tag) :
    addTags acc (ts1 ++ ts2) = addTags (addTags acc ts1) ts2 := by
  unfold addTags
  exact List.foldl_append _ _ _ _

theorem processEntries_nil (env : Env V) (baseUrl : String) (acc : MergeAcc V) :
    processEntries env baseUrl acc [] = acc := rfl

theorem processEntries_cons (env : Env V) (baseUrl : String) (acc : MergeAcc V)
    (e : UrlEntry) (rest : List UrlEntry) :
    processEntries env baseUrl acc (e :: rest) =
      processEntries env baseUrl (processEntry env baseUrl acc e) rest := rfl

/-- A failing entry leaves the accumulators unchanged. -/
theorem processEntry_of_isErr (env : Env V) (baseUrl : String) (acc : MergeAcc V)
    (e : UrlEntry) (h : isErr (fetchIndividualSwaggerDoc env baseUrl e.url) = true) :
    processEntry env baseUrl acc e = acc := by
  unfold processEntry
  cases hf : fetchIndividualSwaggerDoc env baseUrl e.url with
  | ok d => rw [hf] at h; simp [isErr] at h
  | error msg => rfl

/-- If every entry fails, the whole loop leaves the accumulators
unchanged. -/
theorem processEntries_all_fail (env : Env V) (baseUrl : String) (acc : MergeAcc V)
    (entries : List UrlEntry)
    (h : ∀ e ∈ entries, isErr (fetchIndividualSwaggerDoc env baseUrl e.url) = true) :
    processEntries env baseUrl acc entries = acc := by
  induction entries generalizing acc with
  | nil => rfl
  | cons e rest ih =>
    rw [processEntries_cons,
      processEntry_of_isErr env baseUrl acc e (h e (List.mem_cons_self e rest))]
    exact ih acc (fun e' he' => h e' (List.mem_cons_of_mem e he'))

/-! ## Pipeline outcome lemmas -/

/-- Every run of the cache-miss pipeline either fails and leaves the
cache exactly as it was, or succeeds and stores the returned document
under the requested URL with the current timestamp. -/
theorem fetchFresh_outcome (env : Env V) (cfg : Config) (s : FetcherState V)
    (url : String) :
    (isErr (fetchSwaggerDocFresh env cfg s url).result = true
      ∧ (fetchSwaggerDocFresh env cfg s url).state.cache = s.cache)
    ∨ (∃ d2, (fetchSwaggerDocFresh env cfg s url).result = Except.ok d2
      ∧ (fetchSwaggerDocFresh env cfg s url).state.cache =
          objSet s.cache url ⟨d2, env.now⟩) := by
  unfold fetchSwaggerDocFresh
  split
  · split
    · exact Or.inl ⟨rfl, rfl⟩
    · split
      · exact Or.inl ⟨rfl, rfl⟩
      · exact Or.inr ⟨_, rfl, rfl⟩
  · split
    · exact Or.inl ⟨rfl, rfl⟩
    · split
      · exact Or.inl ⟨rfl, rfl⟩
      · dsimp only
        split
        · exact Or.inl ⟨rfl, rfl⟩
        · split
          · exact Or.inl ⟨rfl, rfl⟩
          · exact Or.inr ⟨_, rfl, rfl⟩

/-- The direct-mode pipeline never touches `swaggerConfig` or
`combinedDocs`. -/
theorem fetchFresh_direct_registry_untouched (env : Env V) (cfg : Config)
    (s : FetcherState V) (url : String)
    (hext : (jsEndsWith url ".json" || jsEndsWith url ".yaml" ||
      jsEndsWith url ".yml") = true) :
    (fetchSwaggerDocFresh env cfg s url).state.swaggerConfig = s.swaggerConfig
    ∧ (fetchSwaggerDocFresh env cfg s url).state.combinedDocs = s.combinedDocs := by
  unfold fetchSwaggerDocFresh
  rw [if_pos hext]
  split
  · exact ⟨rfl, rfl⟩
  · split
    · exact ⟨rfl, rfl⟩
    · exact ⟨rfl, rfl⟩

/-- On a cache miss the call is exactly the cache-miss pipeline. -/
theorem fetchSwaggerDoc_miss (env : Env V) (cfg : Config) (s : FetcherState V)
    (url : String) (hmiss : objGet s.cache url = none) :
    fetchSwaggerDoc env cfg s url = fetchSwaggerDocFresh env cfg s url := by
  unfold fetchSwaggerDoc
  rw [hmiss]

/-- On a fresh hit the call returns the cached document, leaves the
state unchanged and issues no request. -/
theorem fetchSwaggerDoc_hit (env : Env V) (cfg : Config) (s : FetcherState V)
    (url : String) (entry : CacheEntry V)
    (hc : objGet s.cache url = some entry)
    (hfresh : env.now - entry.timestamp < cfg.cacheTTL) :
    fetchSwaggerDoc env cfg s url = ⟨Except.ok entry.data, s, []⟩ := by
  unfold fetchSwaggerDoc
  rw [hc]
  dsimp only
  rw [if_pos hfresh]

/-- On a stale hit the call is exactly the cache-miss pipeline. -/
theorem fetchSwaggerDoc_stale (env : Env V) (cfg : Config) (s : FetcherState V)
    (url : String) (entry : CacheEntry V)
    (hc : objGet s.cache url = some entry)
    (hstale : ¬(env.now - entry.timestamp < cfg.cacheTTL)) :
    fetchSwaggerDoc env cfg s url = fetchSwaggerDocFresh env cfg s url := by
  unfold fetchSwaggerDoc
  rw [hc]
  dsimp only
  rw [if_neg hstale]

/-- A successful hub run in full: on a cache miss, for a non-direct URL
with resolvable origin, a parsable registry and a nonempty entry list,
the call returns the combined document built from the merge loop, stores
it in the cache, replaces `combinedDocs` with the loop's map and
`swaggerConfig` with the registry, and requests the registry URL
followed by each entry's URL in order. -/
theorem fetchSwaggerDoc_hub (env : Env V) (cfg : Config) (s : FetcherState V)
    (url baseUrl : String) (sc : SwaggerConfig) (entries : List UrlEntry)
    (hmiss : objGet s.cache url = none)
    (hext : (jsEndsWith url ".json" || jsEndsWith url ".yaml" ||
      jsEndsWith url ".yml") = false)
    (horig : env.origin url = some baseUrl)
    (hcfg : fetchSwaggerConfig env baseUrl = Except.ok sc)
    (hurls : sc.urls = some entries)
    (hne : entries ≠ []) :
    fetchSwaggerDoc env cfg s url =
      ⟨Except.ok (buildCombined entries.length
          (processEntries env baseUrl emptyAcc entries)),
       ⟨objSet s.cache url
          ⟨buildCombined entries.length (processEntries env baseUrl emptyAcc entries),
           env.now⟩,
        (processEntries env baseUrl emptyAcc entries).combinedDocs,
        some sc⟩,
       (baseUrl ++ "/swagger-config.json") :: entriesLog baseUrl entries⟩ := by
  have hie : entries.isEmpty = false := by
    cases entries with
    | nil => exact absurd rfl hne
    | cons a l => rfl
  rw [fetchSwaggerDoc_miss env cfg s url hmiss]
  unfold fetchSwaggerDocFresh
  rw [if_neg (by simp [hext])]
  rw [horig]
  dsimp only
  rw [hcfg]
  dsimp only
  rw [hurls]
  dsimp only
  rw [if_neg (by simp [hie])]
  rfl

/-! ## Claims -/

/-- C9: `applyAuth` with `type: 'apiKey'` and an empty-string key leaves
the request's header map unmodified (an empty credential does not
activate the branch); more generally, whenever the activating credential
fields of the configured auth type are missing or empty, `applyAuth`
returns the request with its header map unchanged, setting no
authentication header.  It is a total Lean function, so it never
fails. -/
theorem C9_applyAuth_inactive (b64 : String → String) :
    (∀ (creds : AuthCredentials) (m : List (String × String)),
      creds.apiKey = some "" →
      applyAuth b64 (some ⟨AuthType.apiKey, some creds⟩) ⟨some m⟩ = ⟨some m⟩)
    ∧ (∀ (auth : Option AuthConfig) (rc : RequestConfig),
      authActivates auth = false →
      (applyAuth b64 auth rc).headers.getD [] = rc.headers.getD []) := by
  constructor
  · intro creds m hkey
    simp [applyAuth, hkey, truthyStr]
  · intro auth rc hauth
    cases auth with
    | none => rfl
    | some a =>
      cases ha : a.type with
      | none => simp [applyAuth, ha]
      | basic =>
        simp only [authActivates, ha] at hauth
        simp [applyAuth, ha, hauth]
      | bearer =>
        simp only [authActivates, ha] at hauth
        simp [applyAuth, ha, hauth]
      | apiKey =>
        simp only [authActivates, ha] at hauth
        simp [applyAuth, ha, hauth]

/-- Witness for C9: a concrete empty-key apiKey configuration and a
concrete populated header map. -/
theorem C9_witness :
    applyAuth (fun s => s)
      (some ⟨AuthType.apiKey, some ⟨none, none, none, some "", some "X-Key"⟩⟩)
      ⟨some [("Accept", "text/plain")]⟩ = ⟨some [("Accept", "text/plain")]⟩ :=
  (C9_applyAuth_inactive (fun s => s)).1 _ _ rfl

/-- C7: `getSchemas` selects strictly by the schema-version field:
with `openapi` set (to a nonempty version string, the JS-truthiness
reading of "set") it returns `components.schemas`, otherwise
`definitions` — even when both maps are populated, because neither case
inspects the other map; an absent selected map yields `[]`, and the
function is total, so it never fails. -/
theorem C7_getSchemas_by_version {V : Type} (doc : SwaggerDoc V) (v : String)
    (cs ds : List (String × V)) :
    (doc.openapi = some v → v ≠ "" →
      doc.components.bind Components.schemas = some cs → getSchemas doc = cs)
    ∧ (doc.openapi = none → doc.definitions = some ds → getSchemas doc = ds)
    ∧ (doc.openapi = some v → v ≠ "" →
      doc.components.bind Components.schemas = none → getSchemas doc = [])
    ∧ (doc.openapi = none → doc.definitions = none → getSchemas doc = []) := by
  refine ⟨?_, ?_, ?_, ?_⟩
  · intro h1 h2 h3
    simp [getSchemas, truthyStr, h1, h2, h3]
  · intro h1 h2
    simp [getSchemas, truthyStr, h1, h2]
  · intro h1 h2 h3
    simp [getSchemas, truthyStr, h1, h2, h3]
  · intro h1 h2
    simp [getSchemas, truthyStr, h1, h2]

/-- Witness for C7: both maps populated in both a modern and a legacy
document; the version field alone decides which map is returned. -/
theorem C7_witness :
    getSchemas docBoth = [("S", "c")]
    ∧ getSchemas docLegacy = [("S", "fromDefinitions")] :=
  ⟨(C7_getSchemas_by_version docBoth "3.0.0" [("S", "c")] []).1 rfl (by decide) rfl,
   (C7_getSchemas_by_version docLegacy "x" [] [("S", "fromDefinitions")]).2.1 rfl rfl⟩

/-- C5: on a cache miss for a URL ending in `.json`/`.yaml`/`.yml`,
`fetchSwaggerDoc` issues exactly one HTTP request — for that URL itself —
whether or not the fetch or the decode succeeds; in particular it never
requests the `swagger-config.json` registry and never derives the
origin. -/
theorem C5_direct_single_fetch {V : Type} (env : Env V) (cfg : Config)
    (s : FetcherState V) (url : String)
    (hmiss : objGet s.cache url = none)
    (hext : (jsEndsWith url ".json" || jsEndsWith url ".yaml" ||
      jsEndsWith url ".yml") = true) :
    (fetchSwaggerDoc env cfg s url).log = [url] := by
  rw [fetchSwaggerDoc_miss env cfg s url hmiss]
  unfold fetchSwaggerDocFresh
  rw [if_pos hext]
  split
  · rfl
  · split
    · rfl
    · rfl

/-- Witness for C5: a concrete direct `.json` fetch requests exactly its
own URL. -/
theorem C5_witness :
    (fetchSwaggerDoc envHub cfg0 s0 "http://h/x.json").log = ["http://h/x.json"] :=
  C5_direct_single_fetch envHub cfg0 s0 "http://h/x.json" (by decide) (by decide)

/-- C10: whenever `fetchSwaggerDoc` throws — direct-mode transport or
decode failure, origin-derivation failure, registry fetch/parse failure,
or an empty registry — the cache is exactly what it was before the call:
no entry is inserted, removed or modified. -/
theorem C10_error_cache_unchanged {V : Type} (env : Env V) (cfg : Config)
    (s : FetcherState V) (url : String)
    (h : isErr (fetchSwaggerDoc env cfg s url).result = true) :
    (fetchSwaggerDoc env cfg s url).state.cache = s.cache := by
  rcases hg : objGet s.cache url with _ | entry
  · rw [fetchSwaggerDoc_miss env cfg s url hg]
    rcases fetchFresh_outcome env cfg s url with ⟨_, hcache⟩ | ⟨d2, hres, _⟩
    · exact hcache
    · rw [fetchSwaggerDoc_miss env cfg s url hg, hres] at h
      simp [isErr] at h
  · by_cases hf : env.now - entry.timestamp < cfg.cacheTTL
    · rw [fetchSwaggerDoc_hit env cfg s url entry hg hf]
    · rw [fetchSwaggerDoc_stale env cfg s url entry hg hf]
      rcases fetchFresh_outcome env cfg s url with ⟨_, hcache⟩ | ⟨d2, hres, _⟩
      · exact hcache
      · rw [fetchSwaggerDoc_stale env cfg s url entry hg hf, hres] at h
        simp [isErr] at h

/-- Witness for C10: a direct URL whose transport fails leaves the
initially empty cache empty. -/
theorem C10_witness :
    (fetchSwaggerDoc envHub cfg0 s0 "http://h/nope.json").state.cache = s0.cache :=
  C10_error_cache_unchanged envHub cfg0 s0 "http://h/nope.json" (by decide)

/-- C4: with a cache entry for a URL, a call while `now - t0 < cacheTTL`
returns exactly the cached document, leaves the state untouched, and
issues no network request; a call once the TTL has expired runs the full
cache-miss pipeline again, and when that pipeline succeeds it overwrites
the cache entry wholesale with the new document and the current
timestamp. -/
theorem C4_cache_ttl {V : Type} (env : Env V) (cfg : Config) (s : FetcherState V)
    (url : String) (d : SwaggerDoc V) (t0 : Int)
    (hc : objGet s.cache url = some ⟨d, t0⟩) :
    (env.now - t0 < cfg.cacheTTL →
      fetchSwaggerDoc env cfg s url = ⟨Except.ok d, s, []⟩)
    ∧ (¬(env.now - t0 < cfg.cacheTTL) →
      fetchSwaggerDoc env cfg s url = fetchSwaggerDocFresh env cfg s url
      ∧ ∀ d2, (fetchSwaggerDocFresh env cfg s url).result = Except.ok d2 →
          objGet (fetchSwaggerDocFresh env cfg s url).state.cache url =
            some ⟨d2, env.now⟩) := by
  constructor
  · intro hfresh
    exact fetchSwaggerDoc_hit env cfg s url ⟨d, t0⟩ hc hfresh
  · intro hstale
    refine ⟨fetchSwaggerDoc_stale env cfg s url ⟨d, t0⟩ hc hstale, ?_⟩
    intro d2 hres
    rcases fetchFresh_outcome env cfg s url with ⟨herr, _⟩ | ⟨d3, hres3, hcache⟩
    · rw [hres] at herr
      simp [isErr] at herr
    · have hd : d3 = d2 := Except.ok.inj (hres3.symm.trans hres)
      rw [hcache, hd, objGet_objSet, if_pos rfl]

/-- Witness for C4: the same cached URL hit within a five-minute TTL
(returns the cached `docC`, no requests) and re-fetched under a 10 ms
TTL (the pipeline runs and overwrites the entry with the fresh `docA`
at the current clock). -/
theorem C4_witness :
    fetchSwaggerDoc envHub cfg0 sCached "http://h/x.json" =
      ⟨Except.ok docC, sCached, []⟩
    ∧ objGet (fetchSwaggerDocFresh envHub cfgShort sCached "http://h/x.json").state.cache
        "http://h/x.json" = some ⟨docA, envHub.now⟩ :=
  ⟨(C4_cache_ttl envHub cfg0 sCached "http://h/x.json" docC 0 (by decide)).1 (by decide),
   ((C4_cache_ttl envHub cfgShort sCached "http://h/x.json" docC 0 (by decide)).2
      (by decide)).2 docA (by decide)⟩

/-- C3: a failing registry entry is skipped without aborting the loop —
processing `e :: rest` with `e` failing equals processing `rest` from
the same accumulators; moreover any successful hub run requests every
entry's URL (the registry URL followed by one request per entry, in
order, failures included), and when every entry fails the call still
returns a composite with empty paths, schemas and tags instead of
throwing. -/
theorem C3_partial_failure_tolerance {V : Type} (env : Env V) :
    (∀ (baseUrl : String) (acc : MergeAcc V) (e : UrlEntry) (rest : List UrlEntry),
      isErr (fetchIndividualSwaggerDoc env baseUrl e.url) = true →
      processEntries env baseUrl acc (e :: rest) = processEntries env baseUrl acc rest)
    ∧ (∀ (cfg : Config) (s : FetcherState V) (url baseUrl : String)
        (sc : SwaggerConfig) (entries : List UrlEntry),
      objGet s.cache url = none →
      (jsEndsWith url ".json" || jsEndsWith url ".yaml" ||
        jsEndsWith url ".yml") = false →
      env.origin url = some baseUrl →
      fetchSwaggerConfig env baseUrl = Except.ok sc →
      sc.urls = some entries →
      entries ≠ [] →
      (fetchSwaggerDoc env cfg s url).log =
        (baseUrl ++ "/swagger-config.json") :: entriesLog baseUrl entries
      ∧ ((∀ e ∈ entries, isErr (fetchIndividualSwaggerDoc env baseUrl e.url) = true) →
        ∃ c, (fetchSwaggerDoc env cfg s url).result = Except.ok c
          ∧ c.paths = [] ∧ c.components.bind Components.schemas = some []
          ∧ c.tags = some [])) := by
  constructor
  · intro baseUrl acc e rest he
    rw [processEntries_cons, processEntry_of_isErr env baseUrl acc e he]
  · intro cfg s url baseUrl sc entries hmiss hext horig hcfg hurls hne
    rw [fetchSwaggerDoc_hub env cfg s url baseUrl sc entries hmiss hext horig hcfg
      hurls hne]
    refine ⟨rfl, ?_⟩
    intro hall
    rw [processEntries_all_fail env baseUrl emptyAcc entries hall]
    exact ⟨_, rfl, rfl, rfl, rfl⟩

/-- Witness for C3: a two-entry registry where the first entry's
transport fails and the second returns a whitespace-only body; both
URLs are still requested and the result is the degraded-success empty
composite. -/
theorem C3_witness :
    (fetchSwaggerDoc envAllFail cfg0 s0 "http://h/api-docs").log =
      ("http://h" ++ "/swagger-config.json") ::
        entriesLog "http://h" [⟨"a.yaml", "A"⟩, ⟨"b.yaml", "B"⟩]
    ∧ ∃ c, (fetchSwaggerDoc envAllFail cfg0 s0 "http://h/api-docs").result = Except.ok c
        ∧ c.paths = [] ∧ c.components.bind Components.schemas = some []
        ∧ c.tags = some [] :=
  let h := (C3_partial_failure_tolerance envAllFail).2 cfg0 s0 "http://h/api-docs"
    "http://h" ⟨some [⟨"a.yaml", "A"⟩, ⟨"b.yaml", "B"⟩]⟩ [⟨"a.yaml", "A"⟩, ⟨"b.yaml", "B"⟩]
    (by decide) (by decide) (by decide) (by decide) (by decide) (by decide)
  ⟨h.1, h.2 (by decide)⟩

/-- C1: for a hub registry `[A, B, C]` where fetching `B` fails and `A`,
`C` succeed (with distinct source names and duplicate-free key sets, per
the registry and document invariants), the composite contains exactly
`A`'s and `C`'s paths and schemas merged in fetch-success order (`C`
overwrites `A` on key collision, keys in neither document are absent),
its tags are the name-deduplicated concatenation of `A`'s then `C`'s
tags (first-seen description wins), and its `openapi`/`swagger` version
fields and `securitySchemes` are `A`'s — the first successfully fetched
source. -/
theorem C1_hub_merge {V : Type} (env : Env V) (cfg : Config) (s : FetcherState V)
    (url baseUrl : String) (sc : SwaggerConfig) (ea eb ec : UrlEntry)
    (A C : SwaggerDoc V) (msg : String)
    (hmiss : objGet s.cache url = none)
    (hext : (jsEndsWith url ".json" || jsEndsWith url ".yaml" ||
      jsEndsWith url ".yml") = false)
    (horig : env.origin url = some baseUrl)
    (hcfg : fetchSwaggerConfig env baseUrl = Except.ok sc)
    (hurls : sc.urls = some [ea, eb, ec])
    (hA : fetchIndividualSwaggerDoc env baseUrl ea.url = Except.ok A)
    (hB : fetchIndividualSwaggerDoc env baseUrl eb.url = Except.error msg)
    (hC : fetchIndividualSwaggerDoc env baseUrl ec.url = Except.ok C)
    (hname : ea.name ≠ ec.name)
    (hpa : (A.paths.map Prod.fst).Nodup)
    (hpc : (C.paths.map Prod.fst).Nodup)
    (hsa : ((docSchemas A).map Prod.fst).Nodup)
    (hsc2 : ((docSchemas C).map Prod.fst).Nodup) :
    ∃ c, (fetchSwaggerDoc env cfg s url).result = Except.ok c
      ∧ (∀ p, objGet c.paths p = (objGet C.paths p).or (objGet A.paths p))
      ∧ (∀ k, objGet ((c.components.bind Components.schemas).getD []) k =
          (objGet (docSchemas C) k).or (objGet (docSchemas A) k))
      ∧ c.tags = some (dedupeTags (A.tags.getD [] ++ C.tags.getD []))
      ∧ c.openapi = A.openapi ∧ c.swagger = A.swagger
      ∧ c.components.bind Components.securitySchemes =
          A.components.bind Components.securitySchemes := by
  have h1 : processEntry env baseUrl emptyAcc ea = mergeDoc emptyAcc ea.name A := by
    unfold processEntry
    rw [hA]
  have h2 : processEntry env baseUrl (mergeDoc emptyAcc ea.name A) eb =
      mergeDoc emptyAcc ea.name A :=
    processEntry_of_isErr env baseUrl _ eb (by rw [hB]; rfl)
  have h3 : processEntry env baseUrl (mergeDoc emptyAcc ea.name A) ec =
      mergeDoc (mergeDoc emptyAcc ea.name A) ec.name C := by
    unfold processEntry
    rw [hC]
  have hproc : processEntries env baseUrl emptyAcc [ea, eb, ec] =
      mergeDoc (mergeDoc emptyAcc ea.name A) ec.name C := by
    rw [processEntries_cons, h1, processEntries_cons, h2, processEntries_cons, h3,
      processEntries_nil]
  rw [fetchSwaggerDoc_hub env cfg s url baseUrl sc [ea, eb, ec] hmiss hext horig hcfg
    hurls (by simp), hproc]
  have hcds : (mergeDoc (mergeDoc emptyAcc ea.name A) ec.name C).combinedDocs =
      [(ea.name, ⟨A, some ea.name⟩), (ec.name, ⟨C, some ec.name⟩)] := by
    rw [mergeDoc_combinedDocs, mergeDoc_combinedDocs]
    dsimp only [emptyAcc]
    rw [objSet_nil, objSet_single_ne ea.name ec.name _ _ hname]
  have hfirst : (mergeDoc (mergeDoc emptyAcc ea.name A) ec.name C).combinedDocs.head? =
      some (ea.name, ⟨A, some ea.name⟩) := by
    rw [hcds]
    rfl
  have hpaths : (mergeDoc (mergeDoc emptyAcc ea.name A) ec.name C).allPaths =
      objMergeAll (objMergeAll [] A.paths) C.paths := by
    rw [mergeDoc_allPaths, mergeDoc_allPaths]
    rfl
  have hschemas : (mergeDoc (mergeDoc emptyAcc ea.name A) ec.name C).allSchemas =
      objMergeAll (objMergeAll [] (docSchemas A)) (docSchemas C) := by
    rw [mergeDoc_allSchemas, mergeDoc_allSchemas]
    rfl
  have hpair1 : ((mergeDoc emptyAcc ea.name A).allTags,
      (mergeDoc emptyAcc ea.name A).tagSet) = addTags ([], []) (A.tags.getD []) :=
    mergeDoc_tags emptyAcc ea.name A
  have hpair2 : ((mergeDoc (mergeDoc emptyAcc ea.name A) ec.name C).allTags,
      (mergeDoc (mergeDoc emptyAcc ea.name A) ec.name C).tagSet) =
      addTags (addTags ([], []) (A.tags.getD [])) (C.tags.getD []) := by
    rw [mergeDoc_tags (mergeDoc emptyAcc ea.name A) ec.name C, hpair1]
  have htags : (mergeDoc (mergeDoc emptyAcc ea.name A) ec.name C).allTags =
      dedupeTags (A.tags.getD [] ++ C.tags.getD []) := by
    have hfst := congrArg Prod.fst hpair2
    simp only at hfst
    rw [hfst, ← addTags_append]
    rfl
  refine ⟨_, rfl, ?_, ?_, ?_, ?_, ?_, ?_⟩
  · intro p
    show objGet (mergeDoc (mergeDoc emptyAcc ea.name A) ec.name C).allPaths p = _
    rw [hpaths, objGet_objMergeAll _ _ _ hpc, objGet_objMergeAll _ _ _ hpa]
    simp [objGet]
  · intro k
    show objGet (mergeDoc (mergeDoc emptyAcc ea.name A) ec.name C).allSchemas k = _
    rw [hschemas, objGet_objMergeAll _ _ _ hsc2, objGet_objMergeAll _ _ _ hsa]
    simp [objGet]
  · show some (mergeDoc (mergeDoc emptyAcc ea.name A) ec.name C).allTags = _
    rw [htags]
  · show ((mergeDoc (mergeDoc emptyAcc ea.name A) ec.name C).combinedDocs.head?.map
      (fun p => p.2)).bind (fun f => f.doc.openapi) = A.openapi
    rw [hfirst]
    rfl
  · show ((mergeDoc (mergeDoc emptyAcc ea.name A) ec.name C).combinedDocs.head?.map
      (fun p => p.2)).bind (fun f => f.doc.swagger) = A.swagger
    rw [hfirst]
    rfl
  · show ((mergeDoc (mergeDoc emptyAcc ea.name A) ec.name C).combinedDocs.head?.map
      (fun p => p.2)).bind (fun f => f.doc.components.bind Components.securitySchemes) =
      A.components.bind Components.securitySchemes
    rw [hfirst]
    rfl

/-- Witness for C1: the concrete hub environment whose registry is
`[A, B, C]` with `B`'s transport failing. -/
theorem C1_witness :
    ∃ c, (fetchSwaggerDoc envHub cfg0 s0 "http://h/api-docs").result = Except.ok c
      ∧ (∀ p, objGet c.paths p = (objGet docC.paths p).or (objGet docA.paths p))
      ∧ (∀ k, objGet ((c.components.bind Components.schemas).getD []) k =
          (objGet (docSchemas docC) k).or (objGet (docSchemas docA) k))
      ∧ c.tags = some (dedupeTags (docA.tags.getD [] ++ docC.tags.getD []))
      ∧ c.openapi = docA.openapi ∧ c.swagger = docA.swagger
      ∧ c.components.bind Components.securitySchemes =
          docA.components.bind Components.securitySchemes :=
  C1_hub_merge envHub cfg0 s0 "http://h/api-docs" "http://h"
    ⟨some [⟨"a.yaml", "A"⟩, ⟨"b.yaml", "B"⟩, ⟨"c.yaml", "C"⟩]⟩
    ⟨"a.yaml", "A"⟩ ⟨"b.yaml", "B"⟩ ⟨"c.yaml", "C"⟩ docA docC
    "Failed to fetch individual Swagger doc from b.yaml"
    (by decide) (by decide) (by decide) (by decide) (by decide) (by decide)
    (by decide) (by decide) (by decide) (by decide) (by decide) (by decide)
    (by decide)

/-- C2 counterexample: a legacy document (`swagger: "2.0"` set,
`openapi` absent) with both schema maps populated.  The claim says the
merge reads `definitions` for a legacy document; the code reads
`components.schemas` because it is present, so the composite carries
the `components.schemas` body, not the `definitions` body. -/
theorem C2_counterexample :
    truthyStr docLegacy.openapi = false
    ∧ truthyStr docLegacy.swagger = true
    ∧ objGet (docLegacy.definitions.getD []) "S" = some "fromDefinitions"
    ∧ ((fetchSwaggerDoc envLegacy cfg0 s0 "http://h/api-docs").result.toOption.bind
        (fun c => objGet ((c.components.bind Components.schemas).getD []) "S"))
      = some "fromComponents"
    ∧ (some "fromComponents" : Option String) ≠ some "fromDefinitions" := by
  decide

/-- C2 amended: during the merge, the schemas contributed by a document
are read from `components.schemas` whenever that map is present (its
mere presence — even empty — decides, regardless of the document's
schema version), from `definitions` only when `components.schemas` is
absent, and from nowhere when both are absent. -/
theorem C2_amended_schema_source_by_presence {V : Type} (acc : MergeAcc V)
    (name : String) (doc : SwaggerDoc V) :
    (∀ m, doc.components.bind Components.schemas = some m →
      (mergeDoc acc name doc).allSchemas = objMergeAll acc.allSchemas m)
    ∧ (doc.components.bind Components.schemas = none →
      ∀ m, doc.definitions = some m →
      (mergeDoc acc name doc).allSchemas = objMergeAll acc.allSchemas m)
    ∧ (doc.components.bind Components.schemas = none → doc.definitions = none →
      (mergeDoc acc name doc).allSchemas = acc.allSchemas) := by
  refine ⟨?_, ?_, ?_⟩
  · intro m hm
    rw [mergeDoc_allSchemas]
    simp [docSchemas, hm]
  · intro hn m hm
    rw [mergeDoc_allSchemas]
    simp [docSchemas, hn, hm]
  · intro hn hd
    rw [mergeDoc_allSchemas]
    simp [docSchemas, hn, hd, objMergeAll]

/-- Witness for the amended C2: the legacy document with both maps
populated contributes its `components.schemas`. -/
theorem C2_witness :
    (mergeDoc emptyAcc "L" docLegacy).allSchemas =
      objMergeAll (emptyAcc : MergeAcc String).allSchemas [("S", "fromComponents")] :=
  (C2_amended_schema_source_by_presence emptyAcc "L" docLegacy).1
    [("S", "fromComponents")] rfl

/-- C6 counterexample: a direct `.json` URL whose body is the empty
string.  With a yaml oracle behaving like the yaml library (the empty
stream parses to `null`), the direct path — which has no emptiness
check — parses the body and caches the resulting document instead of
failing. -/
theorem C6_counterexample :
    envDirectEmpty.net "http://h/x.json" = some ""
    ∧ jsTrim "" = ""
    ∧ (fetchSwaggerDoc envDirectEmpty cfg0 s0 "http://h/x.json").result =
        Except.ok docNull
    ∧ objGet (fetchSwaggerDoc envDirectEmpty cfg0 s0 "http://h/x.json").state.cache
        "http://h/x.json" = some ⟨docNull, 100⟩ := by
  decide

/-- C6 amended: hub-mode sub-documents reject empty or whitespace-only
bodies before any parse attempt (`Empty response`), and such an entry is
skipped by the merge loop; the direct-URL path performs no emptiness
check — the raw body goes straight to the two-stage decode for any raw
text, including whitespace-only text, and a successful parse is cached
like any other document. -/
theorem C6_amended_empty_input {V : Type} (env : Env V) :
    (∀ baseUrl path raw, env.net (baseUrl ++ "/" ++ path) = some raw →
      jsTrim raw = "" →
      fetchIndividualSwaggerDoc env baseUrl path = Except.error "Empty response")
    ∧ (∀ baseUrl (acc : MergeAcc V) (e : UrlEntry) raw,
      env.net (baseUrl ++ "/" ++ e.url) = some raw → jsTrim raw = "" →
      processEntry env baseUrl acc e = acc)
    ∧ (∀ (cfg : Config) (s : FetcherState V) (url raw : String) (d : SwaggerDoc V),
      objGet s.cache url = none →
      (jsEndsWith url ".json" || jsEndsWith url ".yaml" ||
        jsEndsWith url ".yml") = true →
      env.net url = some raw →
      parseYamlJson env raw = some d →
      (fetchSwaggerDoc env cfg s url).result = Except.ok d
      ∧ objGet (fetchSwaggerDoc env cfg s url).state.cache url =
          some ⟨d, env.now⟩) := by
  have hrej : ∀ baseUrl path raw, env.net (baseUrl ++ "/" ++ path) = some raw →
      jsTrim raw = "" →
      fetchIndividualSwaggerDoc env baseUrl path = Except.error "Empty response" := by
    intro baseUrl path raw hnet htrim
    unfold fetchIndividualSwaggerDoc
    rw [hnet]
    dsimp only
    rw [if_pos htrim]
  refine ⟨hrej, ?_, ?_⟩
  · intro baseUrl acc e raw hnet htrim
    apply processEntry_of_isErr
    rw [hrej baseUrl e.url raw hnet htrim]
    rfl
  · intro cfg s url raw d hmiss hext hnet hparse
    rw [fetchSwaggerDoc_miss env cfg s url hmiss]
    unfold fetchSwaggerDocFresh
    rw [if_pos hext, hnet]
    dsimp only
    rw [hparse]
    exact ⟨rfl, by rw [show (⟨Except.ok d,
      { s with cache := objSet s.cache url ⟨d, env.now⟩ }, [url]⟩ :
        FetchOutcome V).state.cache = objSet s.cache url ⟨d, env.now⟩ from rfl,
      objGet_objSet, if_pos rfl]⟩

/-- Witness for the amended C6: the whitespace-only hub entry of
`envAllFail` is rejected with `Empty response`, and the empty direct
body of `envDirectEmpty` is parsed and returned. -/
theorem C6_witness :
    fetchIndividualSwaggerDoc envAllFail "http://h" "b.yaml" =
      Except.error "Empty response"
    ∧ (fetchSwaggerDoc envDirectEmpty cfg0 s0 "http://h/x.json").result =
        Except.ok docNull :=
  ⟨(C6_amended_empty_input envAllFail).1 "http://h" "b.yaml" "   "
      (by decide) (by decide),
   ((C6_amended_empty_input envDirectEmpty).2.2 cfg0 s0 "http://h/x.json" "" docNull
      (by decide) (by decide) (by decide) (by decide)).1⟩

/-- C8 counterexample: a hub fetch populates the registry state and the
retained per-source documents; a subsequent successful single-document
(`.json`) fetch leaves both intact, so `getApiSources` still returns the
old hub's sources and `getDocBySource` still finds a retained document —
the claim said both would be empty. -/
theorem C8_counterexample :
    jsEndsWith "http://h/x.json" ".json" = true
    ∧ isErr (fetchSwaggerDoc envHub cfg0
        (fetchSwaggerDoc envHub cfg0 s0 "http://h/api-docs").state
        "http://h/x.json").result = false
    ∧ getApiSources (fetchSwaggerDoc envHub cfg0
        (fetchSwaggerDoc envHub cfg0 s0 "http://h/api-docs").state
        "http://h/x.json").state = ["A", "B", "C"]
    ∧ (getDocBySource (fetchSwaggerDoc envHub cfg0
        (fetchSwaggerDoc envHub cfg0 s0 "http://h/api-docs").state
        "http://h/x.json").state "A").isSome = true := by
  decide

/-- C8 amended: a single-document-mode fetch never touches the registry
state or the retained per-source documents — `getApiSources` and
`getDocBySource` answer exactly as before the call (so they reflect the
most recent hub-mode fetch, or are empty only when no hub fetch ever
ran); the retained set is cleared only inside a hub-mode fetch, not at
the start of every top-level fetch. -/
theorem C8_amended_registry_survives_direct {V : Type} (env : Env V) (cfg : Config)
    (s : FetcherState V) (url : String)
    (hext : (jsEndsWith url ".json" || jsEndsWith url ".yaml" ||
      jsEndsWith url ".yml") = true) :
    getApiSources (fetchSwaggerDoc env cfg s url).state = getApiSources s
    ∧ ∀ n, getDocBySource (fetchSwaggerDoc env cfg s url).state n =
        getDocBySource s n := by
  rcases hg : objGet s.cache url with _ | entry
  · rw [fetchSwaggerDoc_miss env cfg s url hg]
    have h := fetchFresh_direct_registry_untouched env cfg s url hext
    unfold getApiSources getDocBySource
    rw [h.1, h.2]
    exact ⟨rfl, fun n => rfl⟩
  · by_cases hf : env.now - entry.timestamp < cfg.cacheTTL
    · rw [fetchSwaggerDoc_hit env cfg s url entry hg hf]
      exact ⟨rfl, fun n => rfl⟩
    · rw [fetchSwaggerDoc_stale env cfg s url entry hg hf]
      have h := fetchFresh_direct_registry_untouched env cfg s url hext
      unfold getApiSources getDocBySource
      rw [h.1, h.2]
      exact ⟨rfl, fun n => rfl⟩

/-- Witness for the amended C8: a direct fetch from the initial state
leaves `getApiSources`/`getDocBySource` at their prior (empty)
answers. -/
theorem C8_witness :
    getApiSources (fetchSwaggerDoc envHub cfg0 s0 "http://h/x.json").state =
      getApiSources s0
    ∧ ∀ n, getDocBySource (fetchSwaggerDoc envHub cfg0 s0 "http://h/x.json").state n =
        getDocBySource s0 n :=
  C8_amended_registry_survives_direct envHub cfg0 s0 "http://h/x.json" (by decide)

end Swagger
